import Mathlib

/-! Shallow embedding of `src/module_process_info/process_info_module/process_info.c`,
a Linux kernel module that exposes `/proc/process_info`:

* `process_info_write` parses a decimal PID from the written bytes and stores it
  in the module-level selection `requested_pid`;
* `process_info_show` (the read path) looks the selected PID up in the process
  table and renders a textual report (PID, UID, executable path, command line);
* `read_cmdline` builds the command-line field: a placeholder naming the byte
  length of the argument region, or a fixed no-data marker.

Modelling conventions:
* machine integers are `Int`/`Nat` with explicit truncation (`toCInt32` models a
  cast to the 32-bit signed `int`/`pid_t`; `long` is the 64-bit kernel `long`);
* C strings are Lean `String`s measured in UTF-8 bytes by `utf8Len`; `snprintf`
  and `strscpy` truncation to `size - 1` bytes is `utf8TakeBytes` (the model
  truncates at character granularity, which coincides with the C behaviour
  whenever no multi-byte character straddles the cut; the concrete strings the
  module writes never reach the truncation limit);
* the environment (process table, per-task `mm_struct`, allocation outcomes) is
  passed in explicitly: `tbl : Int → Option TaskStruct` models
  `pid_task (find_vpid pid) PIDTYPE_PID`, `TaskStruct.mm` models `get_task_mm`,
  and `AllocOracle` models the success of the three `kmalloc` calls;
* lock/refcount behaviour is recorded as an event trace: `rcu_read_lock`/`unlock`,
  successful `get_task_mm`/`mmput`, `down_read`/`up_read` on `mm->mmap_lock`,
  and every potentially sleeping `kmalloc(GFP_KERNEL)` call.
-/

namespace ProcInfo

/-- Value of `PAGE_SIZE` on the modelled configuration (x86-64 default). -/
def PAGE_SIZE : Nat := 4096

/-- Value of `PATH_MAX` from the kernel headers. -/
def PATH_MAX : Nat := 4096

/-- errno constant `EINVAL`. -/
def EINVAL : Int := 22

/-- errno constant `EFAULT`. -/
def EFAULT : Int := 14

/-- errno constant `ENOENT`. -/
def ENOENT : Int := 2

/-- UTF-8 byte size of one character (matches the encoding of the string literals in the source file). -/
def charSize (c : Char) : Nat :=
  if c.val < 128 then 1
  else if c.val < 2048 then 2
  else if c.val < 65536 then 3
  else 4

/-- Byte length of a string: the model of C `strlen` for NUL-free strings. -/
def utf8Len (s : String) : Nat := (s.data.map charSize).sum

/-- Longest prefix of a character list whose total byte size fits in `n`. -/
def takeBytesAux : Nat → List Char → List Char
  | _, [] => []
  | n, c :: cs => if charSize c ≤ n then c :: takeBytesAux (n - charSize c) cs else []

/-- Longest prefix of `s` of at most `n` bytes. -/
def utf8TakeBytes (n : Nat) (s : String) : String := String.mk (takeBytesAux n s.data)

/-- Model of `snprintf(buffer, size, ...)` applied to an already formatted
string: at most `size - 1` bytes are stored, always NUL-terminated. -/
def snprintfStr (size : Int) (s : String) : String := utf8TakeBytes (size - 1).toNat s

/-- Model of `strscpy(buffer, src, size)`: copies at most `size - 1` bytes. -/
def strscpyStr (size : Int) (s : String) : String := utf8TakeBytes (size - 1).toNat s

/-- The parts of `struct mm_struct` the module reads. `arg_start`/`arg_end` are
the `unsigned long` argument-region bounds. `exe_file` is `none` when
`mm->exe_file` is NULL; `some none` when `d_path` fails (`IS_ERR(tmp)`);
`some (some p)` when `d_path` resolves the executable to path `p`. -/
structure MmStruct where
  arg_start : Nat
  arg_end : Nat
  exe_file : Option (Option String)
deriving DecidableEq

/-- The parts of `struct task_struct` the module reads. `uid` is the value of
`from_kuid_munged(current_user_ns(), task_uid(task))` as stored in the C `int`.
`mm` is the result of `get_task_mm`. -/
structure TaskStruct where
  uid : Int
  mm : Option MmStruct
deriving DecidableEq

/-- Outcome of the three `kmalloc(GFP_KERNEL)` calls in `process_info_show`:
the `PATH_MAX` buffer for the executable path, the temporary page buffer, and
the page buffer for the command line. -/
structure AllocOracle where
  execOk : Bool
  bufOk : Bool
  cmdOk : Bool
deriving DecidableEq

/-- Synchronisation and allocation events, in program order. `mmGet` is emitted
only when `get_task_mm` returns a non-NULL `mm` (only then is a reference
taken); `kmallocSleep` marks a `kmalloc(GFP_KERNEL)` call, which may sleep. -/
inductive Event where
  | rcuLock
  | rcuUnlock
  | mmGet
  | mmPut
  | mmapDownRead
  | mmapUpRead
  | kmallocSleep
deriving DecidableEq

/-- Result of one read: the return value of `process_info_show`, the lines it
emitted via `seq_printf` (each format string ends in exactly one newline), and
the event trace. -/
structure ShowResult where
  ret : Int
  lines : List String
  trace : List Event
deriving DecidableEq

/-- Truncation of a mathematical integer to the signed 32-bit `int`/`pid_t`
(two-complement wraparound). -/
def toCInt32 (v : Int) : Int :=
  let r := v % 4294967296
  if r < 2147483648 then r else r - 4294967296

/-- The string `snprintf` formats for a non-empty argument region
(`"[командная строка длиной %d байт]"` with `%d` substituted). -/
def cmdlinePlaceholder (len : Int) : String :=
  "[командная строка длиной " ++ toString len ++ " байт]"

/-- The fixed marker `strscpy`ed for an empty argument region. -/
def noCmdlineMarker : String := "[нет данных о командной строке]"

/-- Model of `read_cmdline(task, buffer, buf_size)`. Returns the C return value
(bytes written, or a negative errno), the resulting buffer contents, and the
event trace (`get_task_mm` reference acquire/release). The C null-pointer
checks are modelled by `task = none` / `bufferOk = false`. -/
def read_cmdline (task : Option TaskStruct) (bufferOk : Bool) (buf_size : Int) :
    Int × String × List Event :=
  match task, bufferOk with
  | none, _ => (-EINVAL, "", [])
  | some _, false => (-EINVAL, "", [])
  | some t, true =>
    match t.mm with
    | none => (-ENOENT, "", [])
    | some mm =>
      if mm.arg_start < mm.arg_end then
        let len0 : Int := toCInt32 ((mm.arg_end : Int) - (mm.arg_start : Int))
        let len : Int := if len0 > buf_size - 1 then buf_size - 1 else len0
        let s := snprintfStr buf_size (cmdlinePlaceholder len)
        ((utf8Len s : Int), s, [Event.mmGet, Event.mmPut])
      else
        let s := strscpyStr buf_size noCmdlineMarker
        ((utf8Len s : Int), s, [Event.mmGet, Event.mmPut])

/-- Model of `process_info_show(m, v)`: the whole read path, from the
`requested_pid <= 0` check through lookup, extraction and the four
`seq_printf` calls. `tbl` models `pid_task(find_vpid(pid), PIDTYPE_PID)`. -/
def process_info_show (tbl : Int → Option TaskStruct) (requested_pid : Int)
    (alloc : AllocOracle) : ShowResult :=
  if requested_pid ≤ 0 then
    { ret := 0, lines := ["No valid PID provided"], trace := [] }
  else
    match tbl requested_pid with
    | none =>
      { ret := 0
        lines := ["Process with PID " ++ toString requested_pid ++ " not found"]
        trace := [Event.rcuLock, Event.rcuUnlock] }
    | some task =>
      let uid : Int := task.uid
      let exec_path : Option String :=
        match task.mm with
        | none => none
        | some mm =>
          if alloc.execOk then
            some (match mm.exe_file with
                  | some (some p) => p
                  | some none => "Unknown"
                  | none => "Unknown")
          else none
      let rc := read_cmdline (some task) true ((PAGE_SIZE : Int) - 1)
      let cmdline : Option String :=
        match task.mm with
        | none => none
        | some _ =>
          if alloc.bufOk then
            if alloc.cmdOk then
              some (utf8TakeBytes (PAGE_SIZE - 1) (if rc.1 > 0 then rc.2.1 else ""))
            else none
          else none
      let trace : List Event :=
        match task.mm with
        | none => [Event.rcuLock, Event.rcuUnlock]
        | some _ =>
          [Event.rcuLock, Event.mmGet, Event.kmallocSleep]
            ++ (if alloc.execOk then [Event.mmapDownRead, Event.mmapUpRead] else [])
            ++ [Event.kmallocSleep]
            ++ (if alloc.bufOk then
                  [Event.kmallocSleep] ++ (if alloc.cmdOk then rc.2.2 else [])
                else [])
            ++ [Event.mmPut, Event.rcuUnlock]
      { ret := 0
        lines := ["PID: " ++ toString requested_pid,
                  "UID: " ++ toString uid,
                  "Executable: " ++ exec_path.getD "Unknown",
                  "Command line: " ++ cmdline.getD "Unknown"]
        trace := trace }

/-- Model of `_parse_integer` for base 10: consumes the maximal decimal-digit prefix,
returning the accumulated value (exact, so overflow is `2 ^ 64 ≤ value`), the
number of digits consumed, and the unconsumed remainder. Bytes are `Nat`s. -/
def parseDigits : List Nat → Nat → Nat → Nat × Nat × List Nat
  | [], acc, cnt => (acc, cnt, [])
  | b :: rest, acc, cnt =>
    if 48 ≤ b ∧ b ≤ 57 then parseDigits rest (acc * 10 + (b - 48)) (cnt + 1)
    else (acc, cnt, b :: rest)

/-- Model of `_kstrtoull(s, 10, &res)`: digits, overflow check against `ULLONG_MAX`,
at-least-one-digit check, one optional trailing newline, then end of string. -/
def kstrtoullBase10 (bs : List Nat) : Option Nat :=
  let r := parseDigits bs 0 0
  if 18446744073709551616 ≤ r.1 then none
  else if r.2.1 = 0 then none
  else
    let rest := match r.2.2 with
      | 10 :: tail => tail
      | other => other
    if rest = [] then some r.1 else none

/-- Model of `kstrtol(s, 10, &res)` on a 64-bit kernel (`long` is 64-bit): an optional
leading minus (no plus skip in the negative branch, matching `kstrtoll`), or an
optional leading plus (skipped by `kstrtoull`), with `LONG_MIN`/`LONG_MAX`
range checks. -/
def kstrtolBase10 (bs : List Nat) : Option Int :=
  match bs with
  | 45 :: rest =>
    match kstrtoullBase10 rest with
    | none => none
    | some n => if 9223372036854775808 < n then none else some (-(n : Int))
  | _ =>
    let bs2 := match bs with
      | 43 :: tail => tail
      | other => other
    match kstrtoullBase10 bs2 with
    | none => none
    | some n => if 9223372036854775808 ≤ n then none else some (n : Int)

/-- Model of `process_info_write(file, buffer, len, off)`. `prior` is the value
of `requested_pid` before the call, `payload` the user bytes, `copyFail` the
outcome of `copy_from_user`. Returns the `ssize_t` result and the value of
`requested_pid` after the call. The kernel buffer is NUL-terminated at index
`len`, so parsing sees the payload only up to its first NUL byte. -/
def process_info_write (prior : Int) (payload : List Nat) (copyFail : Bool) :
    Int × Int :=
  if 31 < payload.length then (-EINVAL, prior)
  else if copyFail then (-EFAULT, prior)
  else
    match kstrtolBase10 (payload.takeWhile (fun b => b != 0)) with
    | none => (-EINVAL, prior)
    | some v => ((payload.length : Int), toCInt32 v)

/-- The executable-path field as finally rendered (absence collapsed to
`"Unknown"` exactly as `exec_path ? exec_path : "Unknown"` does). -/
def execPathField (task : TaskStruct) (alloc : AllocOracle) : String :=
  match task.mm with
  | none => "Unknown"
  | some mm =>
    if alloc.execOk then
      match mm.exe_file with
      | some (some p) => p
      | some none => "Unknown"
      | none => "Unknown"
    else "Unknown"

/-- The command-line field as finally rendered (absence collapsed to
`"Unknown"`). -/
def cmdlineField (task : TaskStruct) (alloc : AllocOracle) : String :=
  match task.mm with
  | none => "Unknown"
  | some _ =>
    if alloc.bufOk then
      if alloc.cmdOk then
        let rc := read_cmdline (some task) true ((PAGE_SIZE : Int) - 1)
        utf8TakeBytes (PAGE_SIZE - 1) (if rc.1 > 0 then rc.2.1 else "")
      else "Unknown"
    else "Unknown"

/-- The executable-path field is absent (NULL) when there is no mm or its
buffer allocation failed. -/
def execPathAbsent (task : TaskStruct) (alloc : AllocOracle) : Prop :=
  task.mm = none ∨ alloc.execOk = false

/-- The command-line field is absent (NULL) when there is no mm or either page
allocation failed. -/
def cmdlineAbsent (task : TaskStruct) (alloc : AllocOracle) : Prop :=
  task.mm = none ∨ alloc.bufOk = false ∨ alloc.cmdOk = false

/-- First line of the read output, as a function of the table and selection. -/
def firstLineOf (tbl : Int → Option TaskStruct) (p : Int) : String :=
  if p ≤ 0 then "No valid PID provided"
  else
    match tbl p with
    | none => "Process with PID " ++ toString p ++ " not found"
    | some _ => "PID: " ++ toString p

/-- Balanced nesting check: `wellNested g p tr k = true` iff, starting from `k` outstanding
acquisitions of `g`, every `p` in `tr` matches an outstanding `g` and the trace
ends with zero outstanding acquisitions: acquire/release events are balanced
and properly nested. -/
def wellNested (g p : Event) : List Event → Nat → Bool
  | [], k => k == 0
  | e :: tr, k =>
    if e = p then
      match k with
      | 0 => false
      | k' + 1 => wellNested g p tr k'
    else if e = g then wellNested g p tr (k + 1)
    else wellNested g p tr k

/-- Check whether the trace performs a potentially sleeping operation
(`kmalloc(GFP_KERNEL)` or `down_read`) while the RCU read-side guard is held. -/
def rcuHeldAcrossSleep : List Event → Bool → Bool
  | [], _ => false
  | e :: tr, held =>
    match e with
    | Event.rcuLock => rcuHeldAcrossSleep tr true
    | Event.rcuUnlock => rcuHeldAcrossSleep tr false
    | Event.kmallocSleep => held || rcuHeldAcrossSleep tr held
    | Event.mmapDownRead => held || rcuHeldAcrossSleep tr held
    | _ => rcuHeldAcrossSleep tr held

/-- ASCII payloads written as byte lists. -/
def asciiBytes (s : String) : List Nat := s.data.map Char.toNat

/-- All three `kmalloc` calls succeed. -/
def allocAll : AllocOracle := { execOk := true, bufOk := true, cmdOk := true }

/-- A process table with no live processes. -/
def tblEmpty : Int → Option TaskStruct := fun _ => none

/-- A live process without memory mappings (e.g. a kernel thread or a zombie). -/
def taskNoMm : TaskStruct := { uid := 1000, mm := none }

/-- Table in which only PID 5 is live, and it has no mm. -/
def tblNoMm : Int → Option TaskStruct := fun p => if p = 5 then some taskNoMm else none

/-- A live process with an mm whose argument region is empty and whose
`exe_file` is NULL. -/
def taskInit : TaskStruct :=
  { uid := 0, mm := some { arg_start := 0, arg_end := 0, exe_file := none } }

/-- Table in which only PID 1 is live. -/
def tblInit : Int → Option TaskStruct := fun p => if p = 1 then some taskInit else none

/-- A live process whose argument region is 4095 bytes long, one more than the
`buf_size - 1` cap in `read_cmdline`. -/
def taskBigArgs : TaskStruct :=
  { uid := 0, mm := some { arg_start := 0, arg_end := 4095, exe_file := none } }

/-! Helper lemmas. -/

lemma toCInt32_eq (v : Int) :
    toCInt32 v =
      if v % 4294967296 < 2147483648 then v % 4294967296
      else v % 4294967296 - 4294967296 := rfl

lemma toCInt32_lb (v : Int) : -2147483648 ≤ toCInt32 v := by
  rw [toCInt32_eq]
  have h0 : 0 ≤ v % 4294967296 := Int.emod_nonneg v (by norm_num)
  have h1 : v % 4294967296 < 4294967296 := Int.emod_lt_of_pos v (by norm_num)
  split <;> omega

lemma toCInt32_ub (v : Int) : toCInt32 v < 2147483648 := by
  rw [toCInt32_eq]
  have h0 : 0 ≤ v % 4294967296 := Int.emod_nonneg v (by norm_num)
  have h1 : v % 4294967296 < 4294967296 := Int.emod_lt_of_pos v (by norm_num)
  split <;> omega

lemma toCInt32_eq_self {v : Int} (h1 : -2147483648 ≤ v) (h2 : v < 2147483648) :
    toCInt32 v = v := by
  rw [toCInt32_eq]
  omega

lemma show_nonpos (tbl : Int → Option TaskStruct) (p : Int) (alloc : AllocOracle)
    (h : p ≤ 0) :
    process_info_show tbl p alloc =
      { ret := 0, lines := ["No valid PID provided"], trace := [] } := by
  simp [process_info_show, h]

lemma show_notfound (tbl : Int → Option TaskStruct) (p : Int) (alloc : AllocOracle)
    (h : ¬ p ≤ 0) (h2 : tbl p = none) :
    process_info_show tbl p alloc =
      { ret := 0
        lines := ["Process with PID " ++ toString p ++ " not found"]
        trace := [Event.rcuLock, Event.rcuUnlock] } := by
  simp [process_info_show, h, h2]

lemma show_lines_found (tbl : Int → Option TaskStruct) (p : Int) (alloc : AllocOracle)
    (task : TaskStruct) (h : ¬ p ≤ 0) (h2 : tbl p = some task) :
    (process_info_show tbl p alloc).lines =
      ["PID: " ++ toString p,
       "UID: " ++ toString task.uid,
       "Executable: " ++ execPathField task alloc,
       "Command line: " ++ cmdlineField task alloc] := by
  simp only [process_info_show, h, if_false, h2]
  rcases htm : task.mm with _ | mm
  · simp [htm, execPathField, cmdlineField]
  · cases he : alloc.execOk <;> cases hb : alloc.bufOk <;> cases hc : alloc.cmdOk <;>
      simp [htm, he, hb, hc, execPathField, cmdlineField]

lemma show_ret (tbl : Int → Option TaskStruct) (p : Int) (alloc : AllocOracle) :
    (process_info_show tbl p alloc).ret = 0 := by
  unfold process_info_show
  split
  · rfl
  · split <;> rfl

lemma show_head (tbl : Int → Option TaskStruct) (p : Int) (alloc : AllocOracle) :
    (process_info_show tbl p alloc).lines.head? = some (firstLineOf tbl p) := by
  by_cases h : p ≤ 0
  · rw [show_nonpos tbl p alloc h]
    simp [firstLineOf, h]
  · rcases h2 : tbl p with _ | task
    · rw [show_notfound tbl p alloc h h2]
      simp [firstLineOf, h, h2]
    · rw [show_lines_found tbl p alloc task h h2]
      simp [firstLineOf, h, h2]

lemma write_success (prior : Int) (payload : List Nat) (v : Int)
    (hlen : ¬ 31 < payload.length)
    (hp : kstrtolBase10 (payload.takeWhile (fun b => b != 0)) = some v) :
    process_info_write prior payload false = ((payload.length : Int), toCInt32 v) := by
  simp [process_info_write, hlen, hp]

lemma write_badparse (prior : Int) (payload : List Nat)
    (hlen : ¬ 31 < payload.length)
    (hp : kstrtolBase10 (payload.takeWhile (fun b => b != 0)) = none) :
    process_info_write prior payload false = (-EINVAL, prior) := by
  simp [process_info_write, hlen, hp]

lemma takeBytesAux_sum_le (n : Nat) (cs : List Char) :
    ((takeBytesAux n cs).map charSize).sum ≤ n := by
  induction cs generalizing n with
  | nil => simp [takeBytesAux]
  | cons c cs ih =>
    rw [takeBytesAux]
    split
    · next h =>
      have := ih (n - charSize c)
      simp only [List.map_cons, List.sum_cons]
      omega
    · simp

lemma takeBytesAux_of_le (n : Nat) (cs : List Char)
    (h : (cs.map charSize).sum ≤ n) : takeBytesAux n cs = cs := by
  induction cs generalizing n with
  | nil => rfl
  | cons c cs ih =>
    simp only [List.map_cons, List.sum_cons] at h
    rw [takeBytesAux, if_pos (by omega)]
    rw [ih (n - charSize c) (by omega)]

lemma utf8Len_takeBytes_le (n : Nat) (s : String) :
    utf8Len (utf8TakeBytes n s) ≤ n := by
  unfold utf8Len utf8TakeBytes
  exact takeBytesAux_sum_le n s.data

lemma utf8TakeBytes_of_le (n : Nat) (s : String) (h : utf8Len s ≤ n) :
    utf8TakeBytes n s = s := by
  unfold utf8TakeBytes
  unfold utf8Len at h
  rw [takeBytesAux_of_le n s.data h]

lemma utf8Len_append (a b : String) : utf8Len (a ++ b) = utf8Len a + utf8Len b := by
  cases a with
  | mk da =>
    cases b with
    | mk db =>
      show utf8Len (String.mk (da ++ db)) = _
      unfold utf8Len
      simp

lemma digitChar_big (n : Nat) : Nat.digitChar (n + 16) = '*' := by
  unfold Nat.digitChar
  repeat rw [if_neg (by omega)]

lemma charSize_digitChar (d : Nat) : charSize (Nat.digitChar d) = 1 := by
  rcases Nat.lt_or_ge d 16 with h | h
  · interval_cases d <;> decide
  · obtain ⟨n, rfl⟩ := Nat.exists_eq_add_of_le h
    rw [Nat.add_comm 16 n, digitChar_big]
    decide

lemma toDigitsCore_size (fuel : Nat) :
    ∀ (m n : Nat) (ds : List Char), n < 10 ^ (m + 1) → m + 1 ≤ fuel →
      ((Nat.toDigitsCore 10 fuel n ds).map charSize).sum ≤
        ((ds.map charSize).sum) + (m + 1) := by
  induction fuel with
  | zero => intro m n ds _ h; omega
  | succ fuel ih =>
    intro m n ds hlt hle
    rw [Nat.toDigitsCore]
    split
    · simp [charSize_digitChar]
      omega
    · next hne =>
      have h10 : 10 ≤ n := by
        rcases Nat.lt_or_ge n 10 with h | h
        · exact absurd (Nat.div_eq_of_lt h) hne
        · exact h
      have hm : 1 ≤ m := by
        by_contra hm0
        have : m = 0 := by omega
        subst this
        simp at hlt
        omega
      rcases Nat.exists_eq_add_of_le hm with ⟨m', rfl⟩
      have hdiv : n / 10 < 10 ^ (m' + 1) := by
        have : n < 10 ^ (m' + 1) * 10 := by
          have : 10 ^ (1 + m' + 1) = 10 ^ (m' + 1) * 10 := by ring
          omega
        omega
      have := ih (m') (n / 10) (Nat.digitChar (n % 10) :: ds) hdiv (by omega)
      simp only [List.map_cons, List.sum_cons, charSize_digitChar] at this
      omega

lemma utf8Len_natRepr_le10 (k : Nat) (h : k < 10000000000) : utf8Len (Nat.repr k) ≤ 10 := by
  have hrepr : utf8Len (Nat.repr k) = ((Nat.toDigitsCore 10 (k + 1) k []).map charSize).sum := by
    unfold Nat.repr Nat.toDigits List.asString utf8Len
    rfl
  rw [hrepr]
  rcases Nat.lt_or_ge k 10 with hk | hk
  · have := toDigitsCore_size (k + 1) 0 k [] (by omega) (by omega)
    simp at this
    omega
  · have := toDigitsCore_size (k + 1) 9 k [] (by omega) (by omega)
    simp at this
    omega

lemma intToString_ofNat (n : Nat) : toString (Int.ofNat n) = Nat.repr n := rfl

lemma intToString_negSucc (n : Nat) : toString (Int.negSucc n) = "-" ++ Nat.repr (n + 1) := rfl

lemma utf8Len_placeholder_le (len : Int) (hlb : -2147483648 ≤ len) (h1 : len ≤ 4094) :
    utf8Len (cmdlinePlaceholder len) ≤ 67 := by
  unfold cmdlinePlaceholder
  rw [utf8Len_append, utf8Len_append]
  have hpre : utf8Len "[командная строка длиной " = 46 := by decide
  have hsuf : utf8Len " байт]" = 10 := by decide
  have hts : utf8Len (toString len) ≤ 11 := by
    rcases len with n | n
    · rw [intToString_ofNat]
      have hcast : Int.ofNat n = (n : Int) := rfl
      rw [hcast] at h1
      have hn : n < 10000000000 := by omega
      have := utf8Len_natRepr_le10 n hn
      omega
    · rw [intToString_negSucc, utf8Len_append]
      have hone : utf8Len "-" = 1 := by decide
      have hneg : Int.negSucc n = -((n : Int) + 1) := Int.negSucc_eq n
      rw [hneg] at hlb
      have hn : n + 1 < 10000000000 := by omega
      have := utf8Len_natRepr_le10 (n + 1) hn
      omega
  omega

/-- In the configuration `process_info_show` uses (`buf_size = PAGE_SIZE - 1`),
`read_cmdline` on a task with an mm yields exactly the placeholder (capped at
4094) or the no-data marker, and a `[mmGet, mmPut]` trace. -/
lemma read_cmdline_spec (t : TaskStruct) (mm : MmStruct) (htm : t.mm = some mm) :
    (mm.arg_start < mm.arg_end →
      (read_cmdline (some t) true 4095).2.1 =
        cmdlinePlaceholder
          (if toCInt32 ((mm.arg_end : Int) - (mm.arg_start : Int)) > 4094 then 4094
           else toCInt32 ((mm.arg_end : Int) - (mm.arg_start : Int)))) ∧
    (¬ mm.arg_start < mm.arg_end →
      (read_cmdline (some t) true 4095).2.1 = noCmdlineMarker) ∧
    (read_cmdline (some t) true 4095).2.2 = [Event.mmGet, Event.mmPut] := by
  refine ⟨?_, ?_, ?_⟩
  · intro hne
    simp only [read_cmdline, htm, if_pos hne]
    set len0 : Int := toCInt32 ((mm.arg_end : Int) - (mm.arg_start : Int)) with hlen0
    have hlb := toCInt32_lb ((mm.arg_end : Int) - (mm.arg_start : Int))
    have hub := toCInt32_ub ((mm.arg_end : Int) - (mm.arg_start : Int))
    by_cases hcap : len0 > 4094
    · rw [if_pos (by omega : len0 > (4095 : Int) - 1)]
      show snprintfStr 4095 (cmdlinePlaceholder ((4095 : Int) - 1)) = _
      rw [if_pos hcap]
      unfold snprintfStr
      rw [utf8TakeBytes_of_le]
      · norm_num
      · have : utf8Len (cmdlinePlaceholder ((4095 : Int) - 1)) ≤ 67 :=
          utf8Len_placeholder_le _ (by norm_num) (by norm_num)
        omega
    · rw [if_neg (by omega : ¬ len0 > (4095 : Int) - 1)]
      show snprintfStr 4095 (cmdlinePlaceholder len0) = _
      rw [if_neg hcap]
      unfold snprintfStr
      rw [utf8TakeBytes_of_le]
      have : utf8Len (cmdlinePlaceholder len0) ≤ 67 :=
        utf8Len_placeholder_le _ (by omega) (by omega)
      omega
  · intro hge
    simp only [read_cmdline, htm, if_neg hge]
    show strscpyStr 4095 noCmdlineMarker = _
    unfold strscpyStr
    rw [utf8TakeBytes_of_le]
    have : utf8Len noCmdlineMarker = 56 := by decide
    omega
  · simp only [read_cmdline, htm]
    split <;> rfl

lemma read_cmdline_trace (t : Option TaskStruct) (ok : Bool) (bs : Int) :
    (read_cmdline t ok bs).2.2 = [] ∨
    (read_cmdline t ok bs).2.2 = [Event.mmGet, Event.mmPut] := by
  rcases t with _ | tt
  · left; rfl
  · cases ok
    · left; rfl
    · rcases htm : tt.mm with _ | mm
      · left; simp [read_cmdline, htm]
      · right
        simp only [read_cmdline, htm]
        split <;> rfl

lemma show_trace_found_nomm (tbl : Int → Option TaskStruct) (p : Int)
    (alloc : AllocOracle) (task : TaskStruct) (h : ¬ p ≤ 0)
    (h2 : tbl p = some task) (htm : task.mm = none) :
    (process_info_show tbl p alloc).trace = [Event.rcuLock, Event.rcuUnlock] := by
  simp [process_info_show, h, h2, htm]

lemma show_trace_found_mm (tbl : Int → Option TaskStruct) (p : Int)
    (alloc : AllocOracle) (task : TaskStruct) (mm : MmStruct) (h : ¬ p ≤ 0)
    (h2 : tbl p = some task) (htm : task.mm = some mm) :
    (process_info_show tbl p alloc).trace =
      [Event.rcuLock, Event.mmGet, Event.kmallocSleep]
        ++ (if alloc.execOk then [Event.mmapDownRead, Event.mmapUpRead] else [])
        ++ [Event.kmallocSleep]
        ++ (if alloc.bufOk then
              [Event.kmallocSleep]
                ++ (if alloc.cmdOk then [Event.mmGet, Event.mmPut] else [])
            else [])
        ++ [Event.mmPut, Event.rcuUnlock] := by
  have hps : ((PAGE_SIZE : Int) - 1) = 4095 := by norm_num [PAGE_SIZE]
  have hrc := (read_cmdline_spec task mm htm).2.2
  simp only [process_info_show, h, if_false, h2, htm, hps, hrc]

lemma show_trace_mem (tbl : Int → Option TaskStruct) (p : Int) (alloc : AllocOracle) :
    (process_info_show tbl p alloc).trace = [] ∨
    (process_info_show tbl p alloc).trace = [Event.rcuLock, Event.rcuUnlock] ∨
    (process_info_show tbl p alloc).trace =
      [Event.rcuLock, Event.mmGet, Event.kmallocSleep, Event.kmallocSleep,
       Event.mmPut, Event.rcuUnlock] ∨
    (process_info_show tbl p alloc).trace =
      [Event.rcuLock, Event.mmGet, Event.kmallocSleep, Event.kmallocSleep,
       Event.kmallocSleep, Event.mmPut, Event.rcuUnlock] ∨
    (process_info_show tbl p alloc).trace =
      [Event.rcuLock, Event.mmGet, Event.kmallocSleep, Event.kmallocSleep,
       Event.kmallocSleep, Event.mmGet, Event.mmPut, Event.mmPut, Event.rcuUnlock] ∨
    (process_info_show tbl p alloc).trace =
      [Event.rcuLock, Event.mmGet, Event.kmallocSleep, Event.mmapDownRead,
       Event.mmapUpRead, Event.kmallocSleep, Event.mmPut, Event.rcuUnlock] ∨
    (process_info_show tbl p alloc).trace =
      [Event.rcuLock, Event.mmGet, Event.kmallocSleep, Event.mmapDownRead,
       Event.mmapUpRead, Event.kmallocSleep, Event.kmallocSleep, Event.mmPut,
       Event.rcuUnlock] ∨
    (process_info_show tbl p alloc).trace =
      [Event.rcuLock, Event.mmGet, Event.kmallocSleep, Event.mmapDownRead,
       Event.mmapUpRead, Event.kmallocSleep, Event.kmallocSleep, Event.mmGet,
       Event.mmPut, Event.mmPut, Event.rcuUnlock] := by
  by_cases h : p ≤ 0
  · left
    rw [show_nonpos tbl p alloc h]
  · rcases h2 : tbl p with _ | task
    · right; left
      rw [show_notfound tbl p alloc h h2]
    · rcases htm : task.mm with _ | mm
      · right; left
        exact show_trace_found_nomm tbl p alloc task h h2 htm
      · rw [show_trace_found_mm tbl p alloc task mm h h2 htm]
        rcases alloc with ⟨e, b, c⟩
        cases e <;> cases b <;> cases c <;> decide

lemma execPathField_absent (task : TaskStruct) (alloc : AllocOracle)
    (h : execPathAbsent task alloc) : execPathField task alloc = "Unknown" := by
  unfold execPathField
  rcases h with hmm | he
  · rw [hmm]
  · rcases task.mm with _ | mm
    · rfl
    · simp [he]

lemma cmdlineField_absent (task : TaskStruct) (alloc : AllocOracle)
    (h : cmdlineAbsent task alloc) : cmdlineField task alloc = "Unknown" := by
  unfold cmdlineField
  rcases htm : task.mm with _ | mm
  · rfl
  · rcases h with hmm | hb | hc
    · rw [htm] at hmm; cases hmm
    · simp [hb]
    · simp [hc]

/-! Claim theorems. -/

/-- Claim C1: for every read, a non-positive selection yields the single line
`No valid PID provided`; a selection naming no live process yields the single
line `Process with PID <id> not found`; otherwise the output is exactly four
lines, in the order PID, UID, Executable, Command line, with `Unknown`
substituted for any absent field. -/
theorem c1_read_rendering (tbl : Int → Option TaskStruct) (pid : Int)
    (alloc : AllocOracle) :
    (pid ≤ 0 → (process_info_show tbl pid alloc).lines = ["No valid PID provided"]) ∧
    (¬ pid ≤ 0 → tbl pid = none →
      (process_info_show tbl pid alloc).lines =
        ["Process with PID " ++ toString pid ++ " not found"]) ∧
    (∀ task, ¬ pid ≤ 0 → tbl pid = some task →
      (process_info_show tbl pid alloc).lines =
        ["PID: " ++ toString pid,
         "UID: " ++ toString task.uid,
         "Executable: " ++ execPathField task alloc,
         "Command line: " ++ cmdlineField task alloc] ∧
      (execPathAbsent task alloc → execPathField task alloc = "Unknown") ∧
      (cmdlineAbsent task alloc → cmdlineField task alloc = "Unknown")) := by
  refine ⟨fun h => ?_, fun h h2 => ?_, fun task h h2 => ?_⟩
  · rw [show_nonpos tbl pid alloc h]
  · rw [show_notfound tbl pid alloc h h2]
  · exact ⟨show_lines_found tbl pid alloc task h h2,
      execPathField_absent task alloc, cmdlineField_absent task alloc⟩

/-- Witness for C1 at a concrete table: PID 5 is live with UID 1000 and no mm. -/
theorem c1_read_rendering_witness :
    (process_info_show tblNoMm 5 allocAll).lines =
      ["PID: " ++ toString (5 : Int),
       "UID: " ++ toString (1000 : Int),
       "Executable: " ++ execPathField taskNoMm allocAll,
       "Command line: " ++ cmdlineField taskNoMm allocAll] :=
  ((c1_read_rendering tblNoMm 5 allocAll).2.2 taskNoMm (by decide) (by decide)).1

/-- Counterexample to claim C2 as stated: the 10-byte payload `"4294967296"`
parses to 4294967296, the write succeeds (returns 10), but the stored
selection is `(pid_t)4294967296 = 0`, not the parsed value. -/
theorem c2_counterexample :
    (process_info_write 7 (asciiBytes "4294967296") false).1 = 10 ∧
    kstrtolBase10 ((asciiBytes "4294967296").takeWhile (fun b => b != 0)) =
      some 4294967296 ∧
    (process_info_write 7 (asciiBytes "4294967296") false).2 = 0 ∧
    (0 : Int) ≠ 4294967296 := by decide

/-- Claim C2 as amended: oversized payloads fail with `-EINVAL`; a copy fault
fails with `-EFAULT`; a payload the parser rejects fails with `-EINVAL`; on
success the parsed value truncated to the 32-bit `pid_t` becomes the
selection and the byte count is returned. -/
theorem c2_write_contract (prior : Int) (payload : List Nat) (copyFail : Bool) :
    (31 < payload.length →
      process_info_write prior payload copyFail = (-EINVAL, prior)) ∧
    (payload.length ≤ 31 → copyFail = true →
      process_info_write prior payload copyFail = (-EFAULT, prior)) ∧
    (payload.length ≤ 31 → copyFail = false →
      kstrtolBase10 (payload.takeWhile (fun b => b != 0)) = none →
      process_info_write prior payload copyFail = (-EINVAL, prior)) ∧
    (∀ v, payload.length ≤ 31 → copyFail = false →
      kstrtolBase10 (payload.takeWhile (fun b => b != 0)) = some v →
      process_info_write prior payload copyFail =
        ((payload.length : Int), toCInt32 v)) := by
  refine ⟨fun h => ?_, fun h hc => ?_, fun h hc hp => ?_, fun v h hc hp => ?_⟩
  · simp [process_info_write, h]
  · subst hc
    have hl : ¬ 31 < payload.length := by omega
    simp [process_info_write, hl]
  · subst hc
    exact write_badparse prior payload (by omega) hp
  · subst hc
    exact write_success prior payload v (by omega) hp

/-- Witness for C2 (amended) at the concrete payload `"12"`. -/
theorem c2_write_contract_witness :
    process_info_write 3 (asciiBytes "12") false = (2, 12) := by
  have h := (c2_write_contract 3 (asciiBytes "12") false).2.2.2 12 (by decide)
    rfl (by decide)
  rw [h]
  decide

/-- Claim C3: every read succeeds (status 0) and emits at least one line,
for every process table, selection and allocation outcome. -/
theorem c3_read_total (tbl : Int → Option TaskStruct) (pid : Int)
    (alloc : AllocOracle) :
    (process_info_show tbl pid alloc).ret = 0 ∧
    (process_info_show tbl pid alloc).lines ≠ [] := by
  refine ⟨show_ret tbl pid alloc, ?_⟩
  by_cases h : pid ≤ 0
  · rw [show_nonpos tbl pid alloc h]
    decide
  · rcases h2 : tbl pid with _ | task
    · rw [show_notfound tbl pid alloc h h2]
      simp
    · rw [show_lines_found tbl pid alloc task h h2]
      simp

/-- Counterexample to claim C4 as stated: writing the numeric payload `"0"`
(with prior selection 5) succeeds with return value 1 and changes the
selection to 0; it does not fail with `-EINVAL` and the selection does not
stay at its prior value. -/
theorem c4_counterexample :
    process_info_write 5 [48] false = (1, 0) ∧
    (process_info_write 5 [48] false).1 ≠ -EINVAL ∧
    (process_info_write 5 [48] false).2 ≠ 5 := by decide

/-- Claim C4 as amended: a payload the parser rejects (including the empty
payload) fails with `-EINVAL` and leaves the selection unchanged. A
non-positive numeric payload is accepted: the write succeeds and stores the
value truncated to the signed 32-bit pid type — the identity whenever the
value already fits that range. Whenever the stored (truncated) selection is
non-positive (in particular for every non-positive value fitting the 32-bit
range), the subsequent read reports `No valid PID provided`; a non-positive
value whose truncation is positive (e.g. -4294967295, stored as +1) instead
selects that positive pid. -/
theorem c4_nonnumeric_rejected (prior : Int) (payload : List Nat)
    (tbl : Int → Option TaskStruct) (alloc : AllocOracle) :
    (kstrtolBase10 (payload.takeWhile (fun b => b != 0)) = none →
      process_info_write prior payload false = (-EINVAL, prior)) ∧
    (∀ v, kstrtolBase10 (payload.takeWhile (fun b => b != 0)) = some v →
      v ≤ 0 → payload.length ≤ 31 →
      process_info_write prior payload false = ((payload.length : Int), toCInt32 v) ∧
      (-2147483648 ≤ v → toCInt32 v = v) ∧
      (toCInt32 v ≤ 0 →
        (process_info_show tbl (toCInt32 v) alloc).lines =
          ["No valid PID provided"])) := by
  constructor
  · intro hp
    by_cases hlen : 31 < payload.length
    · simp [process_info_write, hlen]
    · exact write_badparse prior payload hlen hp
  · intro v hp hv hlen
    refine ⟨write_success prior payload v (by omega) hp, fun hlb => ?_, fun hnp => ?_⟩
    · exact toCInt32_eq_self hlb (by omega)
    · rw [show_nonpos tbl (toCInt32 v) alloc hnp]

/-- Witness for C4 (amended): the numeric payload `"0"` (prior selection 5) is
accepted, stores 0, and the subsequent read reports no valid PID. -/
theorem c4_nonnumeric_rejected_witness :
    process_info_write 5 [48] false = (1, 0) ∧
    (process_info_show tblEmpty 0 allocAll).lines = ["No valid PID provided"] := by
  have h := (c4_nonnumeric_rejected 5 [48] tblEmpty allocAll).2 0 (by decide)
    (by decide) (by decide)
  refine ⟨by rw [h.1]; decide, h.2.2 (by decide)⟩

/-- Counterexample to claim C5 as stated: for a live process (PID 5, UID 1000)
whose `get_task_mm` is NULL, the fourth output line is
`Command line: Unknown`, not the no-data command-line marker. -/
theorem c5_counterexample :
    (process_info_show tblNoMm 5 allocAll).lines[3]? =
      some "Command line: Unknown" ∧
    "Command line: Unknown" ≠ "Command line: " ++ noCmdlineMarker := by decide

/-- Claim C5 as amended: for a live process with no memory-map handle, the
read reports the owner id but `Unknown` for both the executable path and the
command-line field, for every allocation outcome. -/
theorem c5_no_mm_fields (tbl : Int → Option TaskStruct) (pid : Int)
    (task : TaskStruct) (alloc : AllocOracle) (h : ¬ pid ≤ 0)
    (h2 : tbl pid = some task) (hmm : task.mm = none) :
    (process_info_show tbl pid alloc).lines =
      ["PID: " ++ toString pid,
       "UID: " ++ toString task.uid,
       "Executable: Unknown",
       "Command line: Unknown"] := by
  rw [show_lines_found tbl pid alloc task h h2]
  rw [execPathField_absent task alloc (Or.inl hmm),
    cmdlineField_absent task alloc (Or.inl hmm)]
  have he : "Executable: " ++ "Unknown" = "Executable: Unknown" := rfl
  have hc : "Command line: " ++ "Unknown" = "Command line: Unknown" := rfl
  rw [he, hc]

/-- Witness for C5 (amended) at the concrete no-mm process. -/
theorem c5_no_mm_fields_witness :
    (process_info_show tblNoMm 5 allocAll).lines =
      ["PID: " ++ toString (5 : Int),
       "UID: " ++ toString (1000 : Int),
       "Executable: Unknown",
       "Command line: Unknown"] :=
  c5_no_mm_fields tblNoMm 5 taskNoMm allocAll (by decide) (by decide) (by decide)

/-- Counterexample to claim C6 as stated: for an argument region of 4095
bytes, the placeholder encodes the capped length 4094, not the byte length
4095 of the region. -/
theorem c6_counterexample :
    (read_cmdline (some taskBigArgs) true 4095).2.1 = cmdlinePlaceholder 4094 ∧
    cmdlinePlaceholder 4094 ≠ cmdlinePlaceholder 4095 := by decide

/-- Claim C6 as amended: with the page-sized buffer `process_info_show`
passes (`buf_size = PAGE_SIZE - 1`), a non-empty argument region smaller than
2^31 bytes yields the placeholder encoding the region length capped at 4094;
an empty region yields the fixed no-data marker (which differs from a
zero-length placeholder); and the output never exceeds 4094 bytes. -/
theorem c6_cmdline_extraction (t : TaskStruct) (mm : MmStruct)
    (htm : t.mm = some mm) :
    (mm.arg_start < mm.arg_end → mm.arg_end - mm.arg_start < 2147483648 →
      (read_cmdline (some t) true ((PAGE_SIZE : Int) - 1)).2.1 =
        cmdlinePlaceholder (min ((mm.arg_end - mm.arg_start : Nat) : Int) 4094)) ∧
    (¬ mm.arg_start < mm.arg_end →
      (read_cmdline (some t) true ((PAGE_SIZE : Int) - 1)).2.1 = noCmdlineMarker) ∧
    noCmdlineMarker ≠ cmdlinePlaceholder 0 ∧
    utf8Len (read_cmdline (some t) true ((PAGE_SIZE : Int) - 1)).2.1 ≤ 4094 := by
  have hps : ((PAGE_SIZE : Int) - 1) = 4095 := by norm_num [PAGE_SIZE]
  rw [hps]
  refine ⟨fun hlt hrange => ?_, (read_cmdline_spec t mm htm).2.1, by decide, ?_⟩
  · rw [(read_cmdline_spec t mm htm).1 hlt]
    have hd : (mm.arg_end : Int) - (mm.arg_start : Int) =
        ((mm.arg_end - mm.arg_start : Nat) : Int) := by omega
    rw [hd]
    have hsmall : toCInt32 ((mm.arg_end - mm.arg_start : Nat) : Int) =
        ((mm.arg_end - mm.arg_start : Nat) : Int) :=
      toCInt32_eq_self (by omega) (by omega)
    rw [hsmall]
    have harg : (if ((mm.arg_end - mm.arg_start : Nat) : Int) > 4094 then (4094 : Int)
        else ((mm.arg_end - mm.arg_start : Nat) : Int)) =
        min ((mm.arg_end - mm.arg_start : Nat) : Int) 4094 := by
      rcases le_or_lt ((mm.arg_end - mm.arg_start : Nat) : Int) 4094 with hle | hgt
      · rw [if_neg (by omega), min_eq_left hle]
      · rw [if_pos (by omega), min_eq_right (by omega)]
    rw [harg]
  · simp only [read_cmdline, htm]
    split
    · show utf8Len (snprintfStr 4095 _) ≤ 4094
      unfold snprintfStr
      refine le_trans (utf8Len_takeBytes_le _ _) ?_
      decide
    · show utf8Len (strscpyStr 4095 noCmdlineMarker) ≤ 4094
      unfold strscpyStr
      refine le_trans (utf8Len_takeBytes_le _ _) ?_
      decide

set_option maxRecDepth 4000 in
/-- Witness for C6 (amended) at the 4095-byte argument region. -/
theorem c6_cmdline_extraction_witness :
    (read_cmdline (some taskBigArgs) true ((PAGE_SIZE : Int) - 1)).2.1 =
      cmdlinePlaceholder (min ((4095 : Nat) : Int) 4094) := by
  have h := (c6_cmdline_extraction taskBigArgs
    { arg_start := 0, arg_end := 4095, exe_file := none } rfl).1
    (by decide) (by decide)
  exact h

/-- Counterexample to claim C7 as stated: the valid 10-byte positive payload
`"2147483648"` is accepted (write returns 10), but the stored selection is
`(pid_t)2147483648 = -2147483648`, so the first line of the subsequent read is
`No valid PID provided` and does not name the written identifier. -/
theorem c7_counterexample :
    (process_info_write 7 (asciiBytes "2147483648") false).1 = 10 ∧
    (process_info_show tblEmpty
        (process_info_write 7 (asciiBytes "2147483648") false).2
        allocAll).lines.head? = some "No valid PID provided" ∧
    "No valid PID provided" ≠ "PID: " ++ toString (2147483648 : Int) ∧
    "No valid PID provided" ≠
      "Process with PID " ++ toString (2147483648 : Int) ++ " not found" := by
  decide

/-- Claim C7 as amended: for every parser-accepted positive payload of at
most 31 bytes whose value fits the signed 32-bit pid type, the write succeeds
returning the byte count, stores exactly that value, and the first line of
the next read names that exact identifier (found or not-found form). -/
theorem c7_roundtrip (prior : Int) (payload : List Nat) (v : Int)
    (tbl : Int → Option TaskStruct) (alloc : AllocOracle)
    (hp : kstrtolBase10 (payload.takeWhile (fun b => b != 0)) = some v)
    (hpos : 0 < v) (hrange : v < 2147483648) (hlen : payload.length ≤ 31) :
    process_info_write prior payload false = ((payload.length : Int), v) ∧
    (process_info_show tbl v alloc).lines.head? =
      some (match tbl v with
            | none => "Process with PID " ++ toString v ++ " not found"
            | some _ => "PID: " ++ toString v) := by
  have hw := write_success prior payload v (by omega) hp
  have ht : toCInt32 v = v := toCInt32_eq_self (by omega) hrange
  rw [ht] at hw
  refine ⟨hw, ?_⟩
  rw [show_head tbl v alloc]
  unfold firstLineOf
  rw [if_neg (by omega)]

/-- Witness for C7 (amended): write `"1"` with PID 1 live. -/
theorem c7_roundtrip_witness :
    process_info_write 7 (asciiBytes "1") false = (1, 1) ∧
    (process_info_show tblInit 1 allocAll).lines.head? =
      some ("PID: " ++ toString (1 : Int)) := by
  have h := c7_roundtrip 7 (asciiBytes "1") 1 tblInit allocAll (by decide)
    (by decide) (by decide) (by decide)
  refine ⟨h.1, ?_⟩
  rw [h.2]
  decide

/-- Claim C8: on every read path, memory-map handle acquisitions are balanced
and properly nested with their releases within the trace of the query, as is the
memory-map read lock; `read_cmdline` likewise releases its own handle before
returning on every path. -/
theorem c8_lock_pairing (tbl : Int → Option TaskStruct) (pid : Int)
    (alloc : AllocOracle) :
    wellNested Event.mmGet Event.mmPut (process_info_show tbl pid alloc).trace 0 = true ∧
    wellNested Event.mmapDownRead Event.mmapUpRead
      (process_info_show tbl pid alloc).trace 0 = true ∧
    ∀ (t : Option TaskStruct) (ok : Bool) (bs : Int),
      wellNested Event.mmGet Event.mmPut (read_cmdline t ok bs).2.2 0 = true ∧
      wellNested Event.mmapDownRead Event.mmapUpRead
        (read_cmdline t ok bs).2.2 0 = true := by
  refine ⟨?_, ?_, ?_⟩
  · rcases show_trace_mem tbl pid alloc with h | h | h | h | h | h | h | h <;>
      rw [h] <;> decide
  · rcases show_trace_mem tbl pid alloc with h | h | h | h | h | h | h | h <;>
      rw [h] <;> decide
  · intro t ok bs
    rcases read_cmdline_trace t ok bs with h | h <;> rw [h] <;> exact ⟨by decide, by decide⟩

/-- Claim C9 is violated by the code: at the failing input (selection 1, PID 1
live with an mm, all allocations attempted) the read holds the RCU read-side
table guard across `kmalloc(GFP_KERNEL)` and `down_read(&mm->mmap_lock)`,
both of which may sleep; the full trace is evaluated below. -/
theorem c9_guard_across_sleep :
    rcuHeldAcrossSleep (process_info_show tblInit 1 allocAll).trace false = true ∧
    (process_info_show tblInit 1 allocAll).trace =
      [Event.rcuLock, Event.mmGet, Event.kmallocSleep, Event.mmapDownRead,
       Event.mmapUpRead, Event.kmallocSleep, Event.kmallocSleep, Event.mmGet,
       Event.mmPut, Event.mmPut, Event.rcuUnlock] := by decide

/-- Claim C10: a parser-accepted payload whose value lies outside the signed
32-bit pid range is accepted; the stored selection is the value truncated to
32 bits (as a signed `pid_t`), which differs from the parsed value, and the
first line of the subsequent read is determined by the truncated selection. -/
theorem c10_pid_truncation (prior : Int) (payload : List Nat) (v : Int)
    (tbl : Int → Option TaskStruct) (alloc : AllocOracle)
    (hp : kstrtolBase10 (payload.takeWhile (fun b => b != 0)) = some v)
    (hlen : payload.length ≤ 31)
    (hout : v < -2147483648 ∨ 2147483648 ≤ v) :
    process_info_write prior payload false = ((payload.length : Int), toCInt32 v) ∧
    toCInt32 v ≠ v ∧
    (process_info_show tbl (toCInt32 v) alloc).lines.head? =
      some (firstLineOf tbl (toCInt32 v)) := by
  refine ⟨write_success prior payload v (by omega) hp, ?_, show_head tbl _ alloc⟩
  have h1 := toCInt32_lb v
  have h2 := toCInt32_ub v
  omega

/-- Witness for C10 at the concrete payload `"4294967296"` (truncates to 0). -/
theorem c10_pid_truncation_witness :
    process_info_write 7 (asciiBytes "4294967296") false = (10, toCInt32 4294967296) ∧
    toCInt32 4294967296 ≠ 4294967296 ∧
    (process_info_show tblEmpty (toCInt32 4294967296) allocAll).lines.head? =
      some (firstLineOf tblEmpty (toCInt32 4294967296)) :=
  c10_pid_truncation 7 (asciiBytes "4294967296") 4294967296 tblEmpty allocAll
    (by decide) (by decide) (by decide)

end ProcInfo
